import Mathlib

/-!
# A shallow embedding of the concurrency-memory-manager allocator (src/my_malloc.c)

The C program manages a single backing region of `TOTAL_SIZE` bytes, cut into
`NUM_SEGMENTS` segments, each with an intrusive doubly-linked free list of
`block_header`s living inside the region.  We embed the program at the
granularity of `block_header` records indexed by their byte address inside the
backing region (the base pointer is taken to be address 0).  All size_t
arithmetic is modelled as arithmetic on `Nat` reduced modulo `WORD = 2^64`
exactly where the C source performs size_t / pointer arithmetic.

Functions are translated statement by statement from src/my_malloc.c; every C
memory read re-reads the current heap so that aliased writes behave exactly as
in the source.  A C `assert` failure, a dereference of an address that holds no
header, or a non-terminating free-list traversal is modelled as `none`
(undefined behaviour); otherwise the operations are total and executable.

The interleaving considered is sequential (one operation at a time, no lock
contention), which is the setting of the claims; the condition-variable wait in
`wait_for_free_block` is modelled by the flag `waited` (whether
`pthread_cond_timedwait` would have been called), since under sequential
execution no concurrent `my_free` can change the retested free list.
-/

/-- size_t modulus: 2^64 on the LP64 platforms the code targets. -/
def WORD : Nat := 2 ^ 64

/-- TOTAL_SIZE from my_malloc.h: total bytes of the backing region (100 MiB). -/
def TOTAL_SIZE : Nat := 104857600

/-- NUM_SEGMENTS from my_malloc.c line 15. -/
def NUM_SEGMENTS : Nat := 5

/-- MIN_SPLIT_SIZE from my_malloc.c line 21. -/
def MIN_SPLIT_SIZE : Nat := 32

/-- LARGE_SIZE from my_malloc.c line 25 (4 MiB threshold for the large path). -/
def LARGE_SIZE : Nat := 4194304

/-- sizeof(block_header) on LP64: size_t(8) + two pointers(16) + bool(1) +
padding(3) + int(4) = 32 bytes, 8-byte aligned. -/
def HDR : Nat := 32

/-- `SEG_1_TO_4_SIZE` from my_malloc.c line 17:
`((TOTAL_SIZE * (double)(20.0/100.0)) / (double)(NUM_SEGMENTS-1))` evaluated in
IEEE-754 double precision and then converted to size_t.
The double nearest 0.2 is 3602879701896397/2^54; the product
`104857600 * (3602879701896397/2^54)` equals `20971520 + 5/2^32` exactly, which
is within half an ulp (2^-29 at that magnitude the ulp is 2^-28) of 20971520,
so it rounds to 20971520.0; dividing by 4.0 is exact, giving 5242880.0, and the
size_t conversion yields 5242880.  (The rational identities are proved below in
`seg_small_double_exact` and `seg_small_double_halfulp`.) -/
def SEG_1_TO_4_SIZE : Nat := 5242880

/-- `SEG_5_SIZE` from my_malloc.c line 18:
`(TOTAL_SIZE * (double)(80.0/100.0))` in IEEE-754 double precision, converted
to size_t.  The double nearest 0.8 is 3602879701896397/2^52; the product equals
`83886080 + 5/2^30` exactly, within half an ulp (ulp = 2^-26 there) of
83886080, so it rounds to 83886080.0 and converts to 83886080.  (See
`seg_large_double_exact` and `seg_large_double_halfulp`.) -/
def SEG_5_SIZE : Nat := 83886080

/-- Exact value of the double product inside SEG_1_TO_4_SIZE:
`104857600 * round(0.2)` as a rational. -/
theorem seg_small_double_exact :
    (104857600 : ℚ) * (3602879701896397 / 2 ^ 54) = 20971520 + 5 / 2 ^ 32 := by
  norm_num

/-- The exact product is within half an ulp (2^-29) of 20971520, so the IEEE
rounding of the double multiplication gives exactly 20971520.0. -/
theorem seg_small_double_halfulp : (5 : ℚ) / 2 ^ 32 < 1 / 2 ^ 29 := by
  norm_num

/-- Exact value of the double product inside SEG_5_SIZE:
`104857600 * round(0.8)` as a rational. -/
theorem seg_large_double_exact :
    (104857600 : ℚ) * (3602879701896397 / 2 ^ 52) = 83886080 + 5 / 2 ^ 30 := by
  norm_num

/-- The exact product is within half an ulp (2^-27) of 83886080, so the IEEE
rounding of the double multiplication gives exactly 83886080.0. -/
theorem seg_large_double_halfulp : (5 : ℚ) / 2 ^ 30 < 1 / 2 ^ 27 := by
  norm_num

/-- The `block_header` struct of my_malloc.c (lines 32-38).  `next`/`prev` are
nullable pointers, modelled as optional byte addresses. -/
structure BlockHeader where
  size : Nat
  next : Option Nat
  prev : Option Nat
  free : Bool
  segment_id : Nat
deriving Repr, DecidableEq

/-- The mutable memory of the backing region, at header granularity: an
association list from byte addresses to the `block_header` written there.
Reads take the first binding; writes replace it in place. -/
def Heap := List (Nat × BlockHeader)
deriving Repr, DecidableEq

/-- Read the header stored at address `x` (`none` = no header there). -/
def Heap.get : Heap → Nat → Option BlockHeader
  | [], _ => none
  | (a, b) :: rest, x => if x = a then some b else Heap.get rest x

/-- Store a header at address `a`, overwriting any existing one. -/
def Heap.set : Heap → Nat → BlockHeader → Heap
  | [], a, b => [(a, b)]
  | (a1, b1) :: rest, a, b => if a = a1 then (a, b) :: rest else (a1, b1) :: Heap.set rest a b

/-- A raw field write at address `a`: the C code writing one field of a header
that may not have been initialized yet (the fresh tail header created by
`split_block`).  Unwritten fields read as an arbitrary fixed junk value; the
source writes every field of the fresh header before reading any. -/
def Heap.rawWrite (h : Heap) (a : Nat) (f : BlockHeader → BlockHeader) : Heap :=
  h.set a (f ((h.get a).getD ⟨0, none, none, false, 0⟩))

/-- Length of the association list (used as traversal fuel). -/
def Heap.len (h : Heap) : Nat := List.length h

/-- The `segment` struct of my_malloc.c (lines 45-51); the mutex and condition
variable carry no data relevant to the sequential semantics. -/
structure Segment where
  size : Nat
  start_ptr : Nat
  free_list : Option Nat
deriving Repr, DecidableEq

/-- The allocator's in-memory state once initialized: the backing region's
headers plus the segment array. -/
structure AllocState where
  heap : Heap
  segments : List Segment
deriving Repr, DecidableEq

/-- The process-wide state of my_malloc.c: the static `initialized` flag and
round-robin counter of `my_malloc`, and the allocated memory (`none` models
both "never allocated" and "freed by free_base_memory": in either case
dereferencing `segments`/`base_ptr` is undefined behaviour, except that the
source only consults them after `initialized` is observed true). -/
structure MMState where
  initialized : Bool
  current_segment : Nat
  mem : Option AllocState
deriving Repr, DecidableEq

/-- The process state at program start. -/
def pristine : MMState := ⟨false, 0, none⟩

/-- Replace segment `i`'s `free_list` head. -/
def setListAux : List Segment → Nat → Option Nat → List Segment
  | [], _, _ => []
  | s :: rest, 0, hd => { s with free_list := hd } :: rest
  | s :: rest, n + 1, hd => s :: setListAux rest n hd

/-- State with segment `i`'s `free_list` head replaced. -/
def setSegList (st : AllocState) (i : Nat) (hd : Option Nat) : AllocState :=
  { st with segments := setListAux st.segments i hd }

/-- Size of segment `i` as initialize_allocator computes it (my_malloc.c
line 77): the first NUM_SEGMENTS-1 segments get SEG_1_TO_4_SIZE, the last gets
SEG_5_SIZE. -/
def segSizeC (i : Nat) : Nat :=
  if i < NUM_SEGMENTS - 1 then SEG_1_TO_4_SIZE else SEG_5_SIZE

/-- The initialization loop of initialize_allocator (my_malloc.c lines 75-93):
starting at segment index `i` with the allocation cursor at `cursor`, create
`k` more segments, each holding one free block spanning the whole segment. -/
def initFrom (i cursor : Nat) : Nat → List Segment × Heap
  | 0 => ([], [])
  | k + 1 =>
    let s := segSizeC i
    let rest := initFrom (i + 1) (cursor + s) k
    ({ size := s, start_ptr := cursor, free_list := some cursor } :: rest.1,
     (cursor, { size := s - HDR, next := none, prev := none, free := true, segment_id := i })
       :: rest.2)

/-- `initialize_allocator` of my_malloc.c (lines 64-94), with the backing
region based at address 0 and the host `malloc` assumed to succeed (the claims
under study do not concern host-allocation failure).  The name drops the
C function's first two syllables only for lexical reasons; it is the model of
that function. -/
def init_allocator : AllocState :=
  { heap := (initFrom 0 0 NUM_SEGMENTS).2, segments := (initFrom 0 0 NUM_SEGMENTS).1 }

/-- Materialize a free list: follow `next` from the head, collecting
address/header pairs.  Fuel bounds the traversal; a traversal that needs more
steps than there are headers must revisit a node and hence cycle forever in C,
which is modelled as `none`, as is following a pointer to a non-header. -/
def chainAux (h : Heap) : Nat → Option Nat → Option (List (Nat × BlockHeader))
  | _, none => some []
  | 0, some _ => none
  | fuel + 1, some a =>
    match h.get a with
    | none => none
    | some b =>
      match chainAux h fuel b.next with
      | none => none
      | some rest => some ((a, b) :: rest)

/-- The sequence of nodes a C traversal of the free list starting at `head`
visits. -/
def chain (h : Heap) (head : Option Nat) : Option (List (Nat × BlockHeader)) :=
  chainAux h (h.len + 1) head

/-- The test `current->free && current->size >= size` of find_best_fit
(my_malloc.c line 128). -/
def Qual (size : Nat) (c : Nat × BlockHeader) : Prop :=
  c.2.free = true ∧ size ≤ c.2.size

instance (size : Nat) (c : Nat × BlockHeader) : Decidable (Qual size c) := by
  unfold Qual; infer_instance

/-- The accumulator loop of `find_best_fit` (my_malloc.c lines 127-134) over
the materialized free list: keep the first block seen whose recorded size is
smallest among the free blocks with `size ≥ requested`. -/
def bestFitGo (size : Nat) : List (Nat × BlockHeader) → Option (Nat × BlockHeader) →
    Option (Nat × BlockHeader)
  | [], best => best
  | c :: rest, best =>
    if Qual size c then
      match best with
      | none => bestFitGo size rest (some c)
      | some b0 =>
        if c.2.size < b0.2.size then bestFitGo size rest (some c)
        else bestFitGo size rest (some b0)
    else bestFitGo size rest best

/-- `find_best_fit` of my_malloc.c (lines 120-136).  Outer `none` is undefined
behaviour (assert failure or broken list); inner `none` is the C function
returning NULL. -/
def find_best_fit (h : Heap) (head : Option Nat) (size : Nat) :
    Option (Option (Nat × BlockHeader)) :=
  if size = 0 then none
  else
    match chain h head with
    | none => none
    | some L => some (bestFitGo size L none)

/-- size_t subtraction `a - b` (wraps modulo 2^64), for `a < WORD`. -/
def sub64 (a b : Nat) : Nat := (a + (WORD - b % WORD)) % WORD

/-- `actual_size = size + sizeof(block_header)` computed by my_malloc
(my_malloc.c line 223), in size_t arithmetic. -/
def actual_size (size : Nat) : Nat := (size + HDR) % WORD

/-- `split_block` of my_malloc.c (lines 142-166), translated statement by
statement; each C memory access re-reads the heap current at that statement so
aliased addresses behave as in the source.  Returns `none` on an assert
failure or a dereference of a non-header. -/
def split_block (st : AllocState) (segIdx bAddr size : Nat) : Option AllocState :=
  if size = 0 then none                                     -- assert(size > 0)
  else
    match st.segments.get? segIdx with
    | none => none
    | some seg =>
      match st.heap.get bAddr with                          -- assert(block != NULL)
      | none => none
      | some b =>
        if MIN_SPLIT_SIZE + HDR ≤ sub64 b.size size then
          -- block_header* new_block = (block_header*)((char*)block + sizeof + size);
          let nbAddr := (bAddr + HDR + size) % WORD
          -- new_block->free = TRUE;
          let h1 := st.heap.rawWrite nbAddr (fun x => { x with free := true })
          -- new_block->size = block->size - size - sizeof(block_header);
          match h1.get bAddr with
          | none => none
          | some b1 =>
            let h2 := h1.rawWrite nbAddr
              (fun x => { x with size := sub64 (sub64 b1.size size) HDR })
            -- new_block->next = block->next;
            match h2.get bAddr with
            | none => none
            | some b2 =>
              let h3 := h2.rawWrite nbAddr (fun x => { x with next := b2.next })
              -- if(new_block->next != NULL) block->next->prev = new_block;
              match h3.get nbAddr with
              | none => none
              | some nb3 =>
                let step4 : Option Heap :=
                  match nb3.next with
                  | none => some h3
                  | some _ =>
                    match h3.get bAddr with
                    | none => none
                    | some b3 =>
                      match b3.next with
                      | none => none                        -- NULL dereference
                      | some na =>
                        match h3.get na with
                        | none => none
                        | some bn => some (h3.set na { bn with prev := some nbAddr })
                match step4 with
                | none => none
                | some h4 =>
                  -- new_block->prev = block;
                  let h5 := h4.rawWrite nbAddr (fun x => { x with prev := some bAddr })
                  -- block->next = new_block;
                  match h5.get bAddr with
                  | none => none
                  | some b5 =>
                    let h6 := h5.set bAddr { b5 with next := some nbAddr }
                    -- new_block->segment_id = block->segment_id;
                    match h6.get bAddr with
                    | none => none
                    | some b6 =>
                      let h7 := h6.rawWrite nbAddr
                        (fun x => { x with segment_id := b6.segment_id })
                      -- block->size = size;
                      match h7.get bAddr with
                      | none => none
                      | some b7 =>
                        let h8 := h7.set bAddr { b7 with size := size % WORD }
                        -- block->free = FALSE;
                        match h8.get bAddr with
                        | none => none
                        | some b8 =>
                          let h9 := h8.set bAddr { b8 with free := false }
                          -- if(block->prev != NULL) block->prev->next = block->next;
                          match h9.get bAddr with
                          | none => none
                          | some b9 =>
                            let step10 : Option Heap :=
                              match b9.prev with
                              | none => some h9
                              | some pa =>
                                match h9.get pa with
                                | none => none
                                | some bp => some (h9.set pa { bp with next := b9.next })
                            match step10 with
                            | none => none
                            | some h10 =>
                              -- if(block->next != NULL) block->next->prev = block->prev;
                              match h10.get bAddr with
                              | none => none
                              | some b10 =>
                                let step11 : Option Heap :=
                                  match b10.next with
                                  | none => some h10
                                  | some na2 =>
                                    match h10.get na2 with
                                    | none => none
                                    | some bn2 =>
                                      some (h10.set na2 { bn2 with prev := b10.prev })
                                match step11 with
                                | none => none
                                | some h11 =>
                                  -- if(seg->free_list == block) seg->free_list = block->next;
                                  match h11.get bAddr with
                                  | none => none
                                  | some b11 =>
                                    let st1 : AllocState := { st with heap := h11 }
                                    if seg.free_list = some bAddr then
                                      some (setSegList st1 segIdx b11.next)
                                    else some st1
        else some st                                        -- residual too small: no-op

/-- `merge_blocks` of my_malloc.c (lines 171-181), statement by statement with
fresh reads (so self-aliasing link fields behave as in the source). -/
def merge_blocks (h0 : Heap) (a1 a2 : Nat) : Option Heap :=
  match h0.get a1, h0.get a2 with
  | some b1, some b2 =>
    -- assert(block1->free && block2->free);
    -- assert((char*)block1 + sizeof(block_header) + block1->size == (char*)block2);
    if (b1.free = true ∧ b2.free = true) ∧ (a1 + HDR + b1.size) % WORD = a2 then
      -- if(block2->prev != NULL) block2->prev->next = block2->next;
      let step1 : Option Heap :=
        match b2.prev with
        | none => some h0
        | some pp =>
          match h0.get pp with
          | none => none
          | some bp => some (h0.set pp { bp with next := b2.next })
      match step1 with
      | none => none
      | some h1 =>
        -- if(block2->next != NULL) block2->next->prev = block2->prev;
        match h1.get a2 with
        | none => none
        | some b2b =>
          let step2 : Option Heap :=
            match b2b.next with
            | none => some h1
            | some nn =>
              match h1.get nn with
              | none => none
              | some bn => some (h1.set nn { bn with prev := b2b.prev })
          match step2 with
          | none => none
          | some h2 =>
            -- block1->size += block2->size + sizeof(block_header);
            match h2.get a1, h2.get a2 with
            | some b1c, some b2c =>
              let h3 := h2.set a1 { b1c with size := (b1c.size + b2c.size + HDR) % WORD }
              -- block1->next = block2->next;
              match h3.get a1, h3.get a2 with
              | some b1d, some b2d =>
                let h4 := h3.set a1 { b1d with next := b2d.next }
                -- if(block2->next != NULL) block2->next->prev = block1;
                match h4.get a2 with
                | none => none
                | some b2e =>
                  match b2e.next with
                  | none => some h4
                  | some nn2 =>
                    match h4.get nn2 with
                    | none => none
                    | some bn2 => some (h4.set nn2 { bn2 with prev := some a1 })
              | _, _ => none
            | _, _ => none
    else none
  | _, _ => none

/-- `my_free` of my_malloc.c (lines 287-310).  A NULL pointer is a no-op;
otherwise the header 32 bytes below `ptr` is read, marked free, and coalesced
with whatever its (possibly stale) `prev`/`next` link fields point at, when
those are free and physically adjacent by address arithmetic. -/
def my_free (m : MMState) (ptr : Option Nat) : Option MMState :=
  match ptr with
  | none => some m
  | some p =>
    match m.mem with
    | none => none                                          -- segments/base freed or absent
    | some st =>
      let hAddr := (p + (WORD - HDR)) % WORD                -- (char*)ptr - sizeof(block_header)
      match st.heap.get hAddr with
      | none => none
      | some hdr0 =>
        if NUM_SEGMENTS ≤ hdr0.segment_id then none         -- wild segment dereference
        else
          -- hdr->free = TRUE;
          let h1 := st.heap.set hAddr { hdr0 with free := true }
          -- if (hdr->prev && hdr->prev->free && prev physically adjacent) merge, hdr = hdr->prev
          match h1.get hAddr with
          | none => none
          | some hdr2 =>
            let step1 : Option (Heap × Nat) :=
              match hdr2.prev with
              | none => some (h1, hAddr)
              | some pa =>
                match h1.get pa with
                | none => none
                | some bp =>
                  if bp.free = true ∧ (pa + HDR + bp.size) % WORD = hAddr then
                    match merge_blocks h1 pa hAddr with
                    | none => none
                    | some h2 => some (h2, pa)
                  else some (h1, hAddr)
            match step1 with
            | none => none
            | some (hB, aB) =>
              -- if (hdr->next && hdr->next->free && next physically adjacent) merge
              match hB.get aB with
              | none => none
              | some hdr3 =>
                let step2 : Option Heap :=
                  match hdr3.next with
                  | none => some hB
                  | some na =>
                    match hB.get na with
                    | none => none
                    | some bn =>
                      if bn.free = true ∧ (aB + HDR + hdr3.size) % WORD = na then
                        merge_blocks hB aB na
                      else some hB
                match step2 with
                | none => none
                | some hC => some { m with mem := some { st with heap := hC } }

/-- Result of `wait_for_free_block`: the block found (or NULL) and whether
`pthread_cond_timedwait` was called at least once. -/
structure WaitOut where
  block : Option Nat
  waited : Bool
deriving Repr, DecidableEq

/-- `wait_for_free_block` of my_malloc.c (lines 188-213) under sequential
execution: the retest loop's first best-fit decides, since no concurrent
release can change the list while this thread holds the segment lock; when the
first best-fit misses and the request does not exceed TOTAL_SIZE, the thread
waits (one or more `pthread_cond_timedwait` calls) until the deadline passes
and leaves with NULL. -/
def wait_for_free_block (st : AllocState) (segIdx size : Nat) : Option WaitOut :=
  match st.segments.get? segIdx with                        -- assert(seg != NULL)
  | none => none
  | some seg =>
    if size = 0 then none                                   -- assert(size > 0)
    else
      match seg.free_list with
      | none => none                                        -- assert(seg->free_list != NULL)
      | some _ =>
        match find_best_fit st.heap seg.free_list size with
        | none => none
        | some (some (a, _)) => some ⟨some a, false⟩
        | some none =>
          if TOTAL_SIZE < size then some ⟨none, false⟩      -- break without waiting
          else some ⟨none, true⟩                            -- timedwait until ETIMEDOUT

/-- The small-request loop of my_malloc (lines 259-265): try
`wait_for_free_block` on each small segment in order, stopping at the first
hit; accumulates whether any wait happened. -/
def waitLoop (st : AllocState) (size : Nat) : List Nat → Bool →
    Option (Option (Nat × Nat) × Bool)
  | [], w => some (none, w)
  | i :: rest, w =>
    match wait_for_free_block st i size with
    | none => none
    | some r =>
      match r.block with
      | some a => some (some (i, a), w || r.waited)
      | none => waitLoop st size rest (w || r.waited)

/-- `my_malloc` of my_malloc.c (lines 215-285) under sequential execution.
Returns `(returned pointer or NULL, whether any condition-variable wait
happened, new process state)`; outer `none` is undefined behaviour (assert
failure, dereference of freed or absent memory, broken list). -/
def my_malloc (m : MMState) (size : Nat) : Option (Option Nat × Bool × MMState) :=
  if size = 0 then none                                     -- assert(size > 0)
  else
    let actual := actual_size size
    -- one-time initialization under init_mutex (the initialized flag is
    -- process-wide and is *not* reset by free_base_memory)
    let m1 : MMState :=
      if m.initialized then m
      else { m with initialized := true, mem := some init_allocator }
    match m1.mem with
    | none => none                                          -- dangling `segments` after teardown
    | some st =>
      -- round-robin choice under round_robin_mutex
      let segId := m1.current_segment
      let m2 : MMState := { m1 with current_segment := (m1.current_segment + 1) % (NUM_SEGMENTS - 1) }
      match st.segments.get? segId with
      | none => none
      | some seg =>
        match find_best_fit st.heap seg.free_list actual with
        | none => none
        | some (some (bAddr, _)) =>
          -- hit: split and return the payload pointer
          match split_block st segId bAddr size with
          | none => none
          | some st1 =>
            match st1.heap.get bAddr with
            | none => none
            | some bb =>
              let st2 : AllocState := { st1 with heap := st1.heap.set bAddr { bb with free := false } }
              some (some ((bAddr + HDR) % WORD), false, { m2 with mem := some st2 })
        | some none =>
          -- miss: consult other segments with timed waits
          let waitRes : Option (Option (Nat × Nat) × Bool) :=
            if size ≤ LARGE_SIZE then
              waitLoop st actual [0, 1, 2, 3] false
            else
              match wait_for_free_block st (NUM_SEGMENTS - 1) actual with
              | none => none
              | some r =>
                match r.block with
                | some a => some (some (NUM_SEGMENTS - 1, a), r.waited)
                | none => some (none, r.waited)
          match waitRes with
          | none => none
          | some (none, w) => some (none, w, m2)            -- return NULL
          | some (some (i, bAddr), w) =>
            -- block->segment_id = seg_id;
            match st.heap.get bAddr with
            | none => none
            | some bb0 =>
              let stA : AllocState := { st with heap := st.heap.set bAddr { bb0 with segment_id := i } }
              match split_block stA i bAddr size with
              | none => none
              | some st1 =>
                match st1.heap.get bAddr with
                | none => none
                | some bb =>
                  let st2 : AllocState := { st1 with heap := st1.heap.set bAddr { bb with free := false } }
                  some (some ((bAddr + HDR) % WORD), w, { m2 with mem := some st2 })

/-- `free_base_memory` of my_malloc.c (lines 315-323): destroys the segment
array and releases the backing region, but does *not* reset the static
`initialized` flag or the static round-robin counter of `my_malloc`. -/
def free_base_memory (m : MMState) : MMState := { m with mem := none }

/-- One externally visible operation of the allocator. -/
inductive Op where
  | malloc (s : Nat)
  | mfree (p : Nat)
  | teardown
deriving Repr, DecidableEq

/-- Run a sequence of operations from a process state, collecting the pointer
returned by each `malloc`.  `none` = some operation hit undefined behaviour. -/
def runOps : MMState → List Op → Option (MMState × List (Option Nat))
  | m, [] => some (m, [])
  | m, Op.malloc s :: rest =>
    match my_malloc m s with
    | none => none
    | some (r, _, m1) =>
      match runOps m1 rest with
      | none => none
      | some (mf, rs) => some (mf, r :: rs)
  | m, Op.mfree p :: rest =>
    match my_free m (some p) with
    | none => none
    | some m1 => runOps m1 rest
  | m, Op.teardown :: rest => runOps (free_base_memory m) rest

/-- The addresses on segment `i`'s free list (as a C traversal would visit
them). -/
def segFreeAddrs (st : AllocState) (i : Nat) : Option (List Nat) :=
  match st.segments.get? i with
  | none => none
  | some seg =>
    match chain st.heap seg.free_list with
    | none => none
    | some L => some (L.map Prod.fst)

/-- Walk the physical blocks of a segment: starting at the segment's first
byte, each block occupies `HDR + size` bytes and the next header follows
immediately (spec §3: physical adjacency is inferred by address arithmetic).
`none` if the walk does not exactly tile `[start, stop)` with headers. -/
def physWalk (h : Heap) : Nat → Nat → Nat → Option (List (Nat × BlockHeader))
  | 0, _, _ => none
  | fuel + 1, cur, stop =>
    if cur = stop then some []
    else if stop < cur then none
    else
      match h.get cur with
      | none => none
      | some b =>
        match physWalk h fuel (cur + HDR + b.size) stop with
        | none => none
        | some rest => some ((cur, b) :: rest)



/-! ## The condition-variable deadline computed by wait_for_free_block -/

/-- MAX_WAIT_TIME from my_malloc.c line 24: 0.1 seconds, as an exact
rational (0.1 rounds to a double slightly above 1/10, but the C conversion to
time_t truncates either value identically to 0). -/
def MAX_WAIT_TIME : ℚ := 1 / 10

/-- C's conversion of a nonnegative floating value to an integer type
truncates toward zero; on rationals this is `num / den` in integer division. -/
def cTruncToInt (q : ℚ) : Int := q.num / q.den

/-- `timeout.tv_sec = start_time + (time_t) MAX_WAIT_TIME` together with
`timeout.tv_nsec = 0` (my_malloc.c lines 202-204): the deadline of each
`pthread_cond_timedwait`, in whole seconds. -/
def timeout_tv_sec (start : Int) : Int := start + cTruncToInt MAX_WAIT_TIME

/-- The deadline the specification states: the time at the start of the wait
plus T = 0.1 seconds. -/
def claimed_deadline (start : Int) : ℚ := (start : ℚ) + MAX_WAIT_TIME

/-! ## Claim theorems (evaluation at concrete inputs) -/

/-- C6: the code computes the condition-variable deadline as
`start_time + (time_t) MAX_WAIT_TIME`, and the cast truncates 0.1 to 0, so the
computed deadline equals the wait's start time (the wait expires immediately),
not the claimed `start + 0.1 s`: for every start time the computed `tv_sec` is
`start` itself and differs from the claimed deadline. -/
theorem c6_timedwait_deadline_truncates_to_zero :
    cTruncToInt MAX_WAIT_TIME = 0 ∧
    (∀ start : Int, timeout_tv_sec start = start) ∧
    (∀ start : Int, claimed_deadline start ≠ (timeout_tv_sec start : ℚ)) := by
  have h0 : cTruncToInt MAX_WAIT_TIME = 0 := by
    show (MAX_WAIT_TIME.num / MAX_WAIT_TIME.den : Int) = 0
    norm_num [MAX_WAIT_TIME]
  refine ⟨h0, fun start => by simp [timeout_tv_sec, h0], fun start => ?_⟩
  simp only [claimed_deadline, timeout_tv_sec, h0, add_zero]
  intro hcontra
  have : MAX_WAIT_TIME = 0 := by linarith [add_left_cancel (a := (start : ℚ)) (by simpa using hcontra)]
  norm_num [MAX_WAIT_TIME] at this

/-- C7: first-call initialization partitions the 104857600-byte region into
four small segments of ⌊0.20·C/4⌋ = 5242880 bytes and one large segment of the
remaining 83886080 bytes, tiling the region exactly, and writes in each
segment a single free block at its start with size = segment.size − 32,
free = true, null links, and segment_id = the segment index. -/
theorem c7_initialization_partition_and_initial_blocks :
    init_allocator.segments.map Segment.size =
      [SEG_1_TO_4_SIZE, SEG_1_TO_4_SIZE, SEG_1_TO_4_SIZE, SEG_1_TO_4_SIZE, SEG_5_SIZE] ∧
    SEG_1_TO_4_SIZE = TOTAL_SIZE * 20 / 100 / (NUM_SEGMENTS - 1) ∧
    SEG_5_SIZE = TOTAL_SIZE - (NUM_SEGMENTS - 1) * SEG_1_TO_4_SIZE ∧
    init_allocator.segments.map Segment.start_ptr =
      [0, 5242880, 10485760, 15728640, 20971520] ∧
    20971520 + SEG_5_SIZE = TOTAL_SIZE ∧
    init_allocator.heap =
      [(0, ⟨SEG_1_TO_4_SIZE - HDR, none, none, true, 0⟩),
       (5242880, ⟨SEG_1_TO_4_SIZE - HDR, none, none, true, 1⟩),
       (10485760, ⟨SEG_1_TO_4_SIZE - HDR, none, none, true, 2⟩),
       (15728640, ⟨SEG_1_TO_4_SIZE - HDR, none, none, true, 3⟩),
       (20971520, ⟨SEG_5_SIZE - HDR, none, none, true, 4⟩)] ∧
    init_allocator.segments.map Segment.free_list =
      [some 0, some 5242880, some 10485760, some 15728640, some 20971520] := by
  refine ⟨rfl, by decide, by decide, rfl, by decide, rfl, rfl⟩

/-- C5 (code bug): after a successful allocation and `free_base_memory`, the
static `initialized` flag is still true and the memory is gone, so the next
`my_malloc(128)` dereferences the freed segment array (undefined behaviour,
modelled `none`) instead of re-initializing — whereas an actual first call
from the pristine state returns a valid payload pointer (offset 32). -/
theorem c5_malloc_after_teardown_does_not_reinitialize :
    (my_malloc pristine 128).map (fun r => free_base_memory r.2.2) =
      some ⟨true, 1, none⟩ ∧
    my_malloc ⟨true, 1, none⟩ 128 = none ∧
    (my_malloc pristine 128).map (fun r => r.1) = some (some 32) :=
  ⟨rfl, rfl, rfl⟩

/-- C2 (code bug): starting fresh, `my_malloc(100)` (payload pointer 32)
followed by `my_free(32)` leaves the header at address 0 with free = true
while segment 0's free list consists of the stale tail header at 132 only —
a free block that is not on its segment's free list, violating the exactness
invariant. -/
theorem c2_free_block_missing_from_free_list :
    ((runOps pristine [Op.malloc 100, Op.mfree 32]).bind (fun r => r.1.mem)).map
        (fun st => (segFreeAddrs st 0, (st.heap.get 0).map BlockHeader.free)) =
      some (some [132], some true) ∧
    (0 : Nat) ∉ [132] :=
  ⟨rfl, by decide⟩

/-- C3 (code bug): five allocations of 100 bytes (hitting segment 0 on the
1st and 5th by round robin) followed by releasing the 1st and then the 5th
leave segment 0 physically tiled by exactly two blocks, at offsets 0 and 132,
that are adjacent and both free — coalescing failed because the just-freed
block's stale links bypassed its true left neighbour. -/
theorem c3_adjacent_free_blocks_after_frees :
    ((runOps pristine [Op.malloc 100, Op.malloc 100, Op.malloc 100, Op.malloc 100,
        Op.malloc 100, Op.mfree 32, Op.mfree 164]).bind (fun r => r.1.mem)).bind
        (fun st => physWalk st.heap 50 0 5242880) =
      some [(0, ⟨100, some 132, none, true, 0⟩), (132, ⟨5242716, none, none, true, 0⟩)] ∧
    (0 + HDR + 100 = 132) ∧
    (⟨100, some 132, none, true, 0⟩ : BlockHeader).free = true ∧
    (⟨5242716, none, none, true, 0⟩ : BlockHeader).free = true :=
  ⟨rfl, by decide, rfl, rfl⟩

/-- C1 (code bug): `my_malloc(100)` returns payload pointer 32; a second call
`my_malloc(2^64 − 31)` overflows `actual_size` to 1, passes the best-fit test
in segment 1, and returns payload pointer 5242912 — and the 2^64 − 31 payload
bytes of the second live allocation wrap around the address space and cover
byte 32 of the first live allocation's payload (witness offsets j and i = 0
shown), so two simultaneously live payloads overlap. -/
theorem c1_live_payloads_overlap_after_size_overflow :
    (runOps pristine [Op.malloc 100, Op.malloc 18446744073709551585]).map (fun r => r.2) =
      some [some 32, some 5242912] ∧
    (5242912 + 18446744073704308736) % WORD = (32 + 0) % WORD ∧
    18446744073704308736 < 18446744073709551585 ∧
    (0 : Nat) < 100 ∧
    TOTAL_SIZE < 18446744073709551585 :=
  ⟨rfl, by decide, by decide, by decide, by decide⟩

/-- C9 (counterexample): for s = 2^64 − 31 > TOTAL_SIZE the claim demands a
NULL return, but `actual_size` wraps to 1 and the very first best-fit hit
makes `my_malloc` return the non-null payload pointer 32 from a fresh state. -/
theorem c9_oversize_request_returns_nonnull_on_overflow :
    (runOps pristine [Op.malloc 18446744073709551585]).map (fun r => r.2) =
      some [some 32] ∧
    TOTAL_SIZE < 18446744073709551585 :=
  ⟨rfl, by decide⟩

/-- C10 (counterexample): at s = 2^64 − 31 the wrapped footprint is
`actual_size s = 1 < s`, and the best-fit search is indeed performed against
it, but the split is not: `my_malloc` passes the original `size` to
`split_block`, which therefore stores size 2^64 − 31 in the chosen block —
had the split been performed against the wrapped footprint, the block would
have been shrunk to it instead. -/
theorem c10_split_uses_requested_size_not_wrapped_footprint :
    ((runOps pristine [Op.malloc 18446744073709551585]).bind (fun r => r.1.mem)).map
        (fun st => st.heap.get 0) =
      some (some ⟨18446744073709551585, some 1, none, false, 0⟩) ∧
    actual_size 18446744073709551585 = 1 ∧
    actual_size 18446744073709551585 < 18446744073709551585 :=
  ⟨rfl, by decide, by decide⟩

/-- C10 (amended): for every requested size s with
`SIZE_MAX − sizeof(block_header) < s ≤ SIZE_MAX`, the footprint
`actual_size s = (s + 32) mod 2^64` wraps around and is strictly smaller than
the requested size (this wrapped footprint is what my_malloc hands to
find_best_fit, while split_block receives the original s). -/
theorem c10_actual_size_wraps (s : Nat) (h1 : WORD - HDR < s) (h2 : s < WORD) :
    actual_size s < s ∧ actual_size s = s + HDR - WORD := by
  have hW : WORD = 18446744073709551616 := by decide
  have hH : HDR = 32 := by decide
  have hmod : (s + HDR) % WORD = s + HDR - WORD := by
    rw [Nat.mod_eq_sub_mod (by omega)]
    exact Nat.mod_eq_of_lt (by omega)
  constructor
  · show (s + HDR) % WORD < s
    omega
  · exact hmod

/-- Witness for `c10_actual_size_wraps` at s = 2^64 − 31. -/
theorem c10_actual_size_wraps_witness :
    (WORD - HDR < 18446744073709551585 ∧ 18446744073709551585 < WORD) ∧
    (actual_size 18446744073709551585 < 18446744073709551585 ∧
     actual_size 18446744073709551585 = 18446744073709551585 + HDR - WORD) :=
  ⟨⟨by decide, by decide⟩,
   c10_actual_size_wraps 18446744073709551585 (by decide) (by decide)⟩

/-- C8 (counterexample): a free list holding one block of size 50 with
free = false (reachable: blocks allocated without a split stay listed) makes
find_best_fit return NULL for request 10, although a listed block with
size ≥ 10 exists — the claim omits the `current->free` test the code performs. -/
theorem c8_nonfree_listed_block_skipped :
    find_best_fit [(0, ⟨50, none, none, false, 0⟩)] (some 0) 10 = some none ∧
    (10 : Nat) ≤ 50 :=
  ⟨rfl, by decide⟩

/-- C4 (counterexample): on a fresh state, `my_malloc(5242816)` finds segment
0's single block of size 5242848 (footprint 5242848 fits exactly) and the
residual 32 is below MIN_SPLIT_SIZE + sizeof(header) = 64, so no split occurs —
but contrary to the claim the block is NOT unlinked from the free list: it
remains the list head with free = false. -/
theorem c4_no_split_block_not_unlinked :
    ((runOps pristine [Op.malloc 5242816]).bind (fun r => r.1.mem)).map
        (fun st => ((st.segments.get? 0).map Segment.free_list, st.heap.get 0)) =
      some (some (some 0), some ⟨5242848, none, none, false, 0⟩) ∧
    sub64 5242848 5242816 < MIN_SPLIT_SIZE + HDR ∧
    actual_size 5242816 ≤ 5242848 :=
  ⟨rfl, by decide, by decide⟩

/-! ## Basic lemmas about the heap representation -/

/-- Reading after writing: the written address returns the new header, any
other address is unaffected. -/
theorem Heap.get_set (h : Heap) (a : Nat) (b : BlockHeader) (x : Nat) :
    Heap.get (Heap.set h a b) x = if x = a then some b else Heap.get h x := by
  induction h with
  | nil =>
    simp only [Heap.set, Heap.get]
  | cons hd tl ih =>
    obtain ⟨a1, b1⟩ := hd
    by_cases h1 : a = a1
    · subst h1
      simp only [Heap.set, if_pos rfl, Heap.get]
      by_cases h2 : x = a
      · simp [h2]
      · simp [h2]
    · simp only [Heap.set, if_neg h1, Heap.get, ih]
      by_cases h2 : x = a1
      · subst h2
        rw [if_pos rfl, if_neg (fun hh => h1 hh.symm), if_pos rfl]
      · rw [if_neg h2]
        by_cases h3 : x = a
        · simp [h3]
        · simp [h3, h2]

/-- size_t subtraction coincides with Nat subtraction when it does not wrap. -/
theorem sub64_eq_sub (a b : Nat) (hb : b ≤ a) (ha : a < WORD) : sub64 a b = a - b := by
  have hW : WORD = 18446744073709551616 := by decide
  unfold sub64
  rw [Nat.mod_eq_of_lt (show b < WORD by omega)]
  have he : a + (WORD - b) = (a - b) + WORD := by omega
  rw [he, Nat.add_mod_right]
  exact Nat.mod_eq_of_lt (by omega)

/-! ## Characterization of the best-fit search -/

/-- Accumulator invariant of the find_best_fit loop: with current best `b0`,
the loop either keeps `b0` (and every qualifying listed block is at least as
big), or returns a qualifying block strictly smaller than `b0`, the first of
its size in list order. -/
theorem bestFitGo_acc_spec (s : Nat) :
    ∀ (L : List (Nat × BlockHeader)) (b0 : Nat × BlockHeader),
      (bestFitGo s L (some b0) = some b0 ∧ ∀ c ∈ L, Qual s c → b0.2.size ≤ c.2.size) ∨
      (∃ r L1 L2, bestFitGo s L (some b0) = some r ∧ L = L1 ++ r :: L2 ∧ Qual s r ∧
        r.2.size < b0.2.size ∧
        (∀ c ∈ L1, Qual s c → r.2.size < c.2.size) ∧
        (∀ c ∈ L2, Qual s c → r.2.size ≤ c.2.size)) := by
  intro L
  induction L with
  | nil => intro b0; left; exact ⟨rfl, by simp⟩
  | cons c rest ih =>
    intro b0
    by_cases hq : Qual s c
    · by_cases hlt : c.2.size < b0.2.size
      · have hgo : bestFitGo s (c :: rest) (some b0) = bestFitGo s rest (some c) := by
          simp [bestFitGo, hq, hlt]
        rcases ih c with ⟨heq, hall⟩ | ⟨r, L1, L2, heq, hsplit, hqr, hrlt, h1, h2⟩
        · right
          exact ⟨c, [], rest, by rw [hgo, heq], rfl, hq, hlt, by simp, hall⟩
        · right
          refine ⟨r, c :: L1, L2, by rw [hgo, heq], by rw [hsplit, List.cons_append], hqr,
            lt_trans hrlt hlt, ?_, h2⟩
          intro d hd hqd
          rcases List.mem_cons.mp hd with hd | hd
          · subst hd; exact hrlt
          · exact h1 d hd hqd
      · have hgo : bestFitGo s (c :: rest) (some b0) = bestFitGo s rest (some b0) := by
          simp [bestFitGo, hq, hlt]
        rcases ih b0 with ⟨heq, hall⟩ | ⟨r, L1, L2, heq, hsplit, hqr, hrlt, h1, h2⟩
        · left
          refine ⟨by rw [hgo, heq], ?_⟩
          intro d hd hqd
          rcases List.mem_cons.mp hd with hd | hd
          · subst hd; exact le_of_not_lt hlt
          · exact hall d hd hqd
        · right
          refine ⟨r, c :: L1, L2, by rw [hgo, heq], by rw [hsplit, List.cons_append], hqr, hrlt, ?_, h2⟩
          intro d hd hqd
          rcases List.mem_cons.mp hd with hd | hd
          · subst hd; exact lt_of_lt_of_le hrlt (le_of_not_lt hlt)
          · exact h1 d hd hqd
    · have hgo : bestFitGo s (c :: rest) (some b0) = bestFitGo s rest (some b0) := by
        simp [bestFitGo, hq]
      rcases ih b0 with ⟨heq, hall⟩ | ⟨r, L1, L2, heq, hsplit, hqr, hrlt, h1, h2⟩
      · left
        refine ⟨by rw [hgo, heq], ?_⟩
        intro d hd hqd
        rcases List.mem_cons.mp hd with hd | hd
        · subst hd; exact absurd hqd hq
        · exact hall d hd hqd
      · right
        refine ⟨r, c :: L1, L2, by rw [hgo, heq], by rw [hsplit, List.cons_append], hqr, hrlt, ?_, h2⟩
        intro d hd hqd
        rcases List.mem_cons.mp hd with hd | hd
        · subst hd; exact absurd hqd hq
        · exact h1 d hd hqd

/-- Full characterization of the find_best_fit loop started with no current
best: it returns `none` exactly when no listed block qualifies, and otherwise
returns a qualifying block that is strictly smaller than every qualifying
block before it and no bigger than every qualifying block after it. -/
theorem bestFitGo_none_spec (s : Nat) :
    ∀ L : List (Nat × BlockHeader),
      (bestFitGo s L none = none ∧ ∀ c ∈ L, ¬ Qual s c) ∨
      (∃ r L1 L2, bestFitGo s L none = some r ∧ L = L1 ++ r :: L2 ∧ Qual s r ∧
        (∀ c ∈ L1, Qual s c → r.2.size < c.2.size) ∧
        (∀ c ∈ L2, Qual s c → r.2.size ≤ c.2.size)) := by
  intro L
  induction L with
  | nil => left; exact ⟨rfl, by simp⟩
  | cons c rest ih =>
    by_cases hq : Qual s c
    · have hgo : bestFitGo s (c :: rest) none = bestFitGo s rest (some c) := by
        simp [bestFitGo, hq]
      rcases bestFitGo_acc_spec s rest c with ⟨heq, hall⟩ | ⟨r, L1, L2, heq, hsplit, hqr, hrlt, h1, h2⟩
      · right
        exact ⟨c, [], rest, by rw [hgo, heq], rfl, hq, by simp, hall⟩
      · right
        refine ⟨r, c :: L1, L2, by rw [hgo, heq], by rw [hsplit, List.cons_append], hqr, ?_, h2⟩
        intro d hd hqd
        rcases List.mem_cons.mp hd with hd | hd
        · subst hd; exact hrlt
        · exact h1 d hd hqd
    · have hgo : bestFitGo s (c :: rest) none = bestFitGo s rest none := by
        simp [bestFitGo, hq]
      rcases ih with ⟨heq, hall⟩ | ⟨r, L1, L2, heq, hsplit, hqr, h1, h2⟩
      · left
        refine ⟨by rw [hgo, heq], ?_⟩
        intro d hd
        rcases List.mem_cons.mp hd with hd | hd
        · subst hd; exact hq
        · exact hall d hd
      · right
        refine ⟨r, c :: L1, L2, by rw [hgo, heq], by rw [hsplit, List.cons_append], hqr, ?_, h2⟩
        intro d hd hqd
        rcases List.mem_cons.mp hd with hd | hd
        · subst hd; exact absurd hqd hq
        · exact h1 d hd hqd

/-- If no listed block qualifies, the best-fit loop yields `none`. -/
theorem bestFitGo_none_of_no_qual (s : Nat) (L : List (Nat × BlockHeader))
    (h : ∀ c ∈ L, ¬ Qual s c) : bestFitGo s L none = none := by
  rcases bestFitGo_none_spec s L with ⟨heq, _⟩ | ⟨r, L1, L2, heq, hsplit, hqr, _, _⟩
  · exact heq
  · exact absurd hqr (h r (by rw [hsplit]; exact List.mem_append_right _ (List.mem_cons_self _ _)))

/-- C8 (amended): for every heap, list head and requested size s > 0, if the
free-list traversal visits the blocks `L`, then find_best_fit returns NULL
exactly when no listed block is marked free with size ≥ s, and otherwise
returns a listed block that is free with size ≥ s, has strictly smaller size
than every earlier such block (first encountered wins ties) and size no larger
than every later such block (it is the smallest qualifying block). -/
theorem c8_find_best_fit_amended (h : Heap) (head : Option Nat) (s : Nat)
    (L : List (Nat × BlockHeader)) (hs : 0 < s) (hL : chain h head = some L) :
    (find_best_fit h head s = some none ↔ ∀ c ∈ L, ¬ Qual s c) ∧
    (∀ r, find_best_fit h head s = some (some r) →
      Qual s r ∧ ∃ L1 L2, L = L1 ++ r :: L2 ∧
        (∀ c ∈ L1, Qual s c → r.2.size < c.2.size) ∧
        (∀ c ∈ L2, Qual s c → r.2.size ≤ c.2.size)) := by
  have hfb : find_best_fit h head s = some (bestFitGo s L none) := by
    unfold find_best_fit
    rw [if_neg (Nat.pos_iff_ne_zero.mp hs), hL]
  constructor
  · constructor
    · intro hnone
      rw [hfb] at hnone
      have hbn : bestFitGo s L none = none := Option.some.inj hnone
      rcases bestFitGo_none_spec s L with ⟨_, hall⟩ | ⟨r, L1, L2, heq, hsplit, hqr, _, _⟩
      · exact hall
      · rw [heq] at hbn; cases hbn
    · intro hall
      rw [hfb, bestFitGo_none_of_no_qual s L hall]
  · intro r hr
    rw [hfb] at hr
    have hbr : bestFitGo s L none = some r := Option.some.inj hr
    rcases bestFitGo_none_spec s L with ⟨heq, _⟩ | ⟨r2, L1, L2, heq, hsplit, hqr, h1, h2⟩
    · rw [heq] at hbr; cases hbr
    · rw [heq] at hbr
      have hr2 : r2 = r := Option.some.inj hbr
      subst hr2
      exact ⟨hqr, L1, L2, hsplit, h1, h2⟩

/-- Concrete two-block heap for the C8 witness. -/
def c8wH : Heap := [(0, ⟨40, some 8, none, true, 0⟩), (8, ⟨20, none, some 0, true, 0⟩)]

/-- The list the C traversal of `c8wH` visits from head 0. -/
def c8wL : List (Nat × BlockHeader) :=
  [(0, ⟨40, some 8, none, true, 0⟩), (8, ⟨20, none, some 0, true, 0⟩)]

/-- Witness for `c8_find_best_fit_amended` on a concrete two-block free list
with request 10 (both blocks qualify; the second, smaller one must win). -/
theorem c8_find_best_fit_amended_witness :
    (0 < 10 ∧ chain c8wH (some 0) = some c8wL) ∧
    ((find_best_fit c8wH (some 0) 10 = some none ↔ ∀ c ∈ c8wL, ¬ Qual 10 c) ∧
     (∀ r, find_best_fit c8wH (some 0) 10 = some (some r) →
       Qual 10 r ∧ ∃ L1 L2, c8wL = L1 ++ r :: L2 ∧
         (∀ c ∈ L1, Qual 10 c → r.2.size < c.2.size) ∧
         (∀ c ∈ L2, Qual 10 c → r.2.size ≤ c.2.size))) :=
  ⟨⟨by decide, by rfl⟩,
   c8_find_best_fit_amended c8wH (some 0) 10 c8wL (by decide) (by rfl)⟩

/-- Reading the segment array after replacing one segment's free-list head. -/
theorem setListAux_get? (l : List Segment) :
    ∀ (i : Nat) (hd : Option Nat) (j : Nat),
      (setListAux l i hd).get? j =
        if j = i then (l.get? j).map (fun s => { s with free_list := hd })
        else l.get? j := by
  induction l with
  | nil => intro i hd j; simp [setListAux]
  | cons s rest ih =>
    intro i hd j
    cases i with
    | zero =>
      cases j with
      | zero => simp [setListAux]
      | succ j => simp [setListAux]
    | succ i =>
      cases j with
      | zero => simp [setListAux]
      | succ j =>
        simp only [setListAux, List.get?_cons_succ, ih]
        by_cases h : j = i
        · simp [h]
        · simp [h]


/-- The two possible outcomes of split_block's final head update share the same
heap, so a heap read does not depend on the head test. -/
theorem ite_bind_heap_get (c : Prop) [Decidable c] (h : Heap) (sg1 sg2 : List Segment) (x : Nat) :
    ((if c then some (⟨h, sg1⟩ : AllocState) else some ⟨h, sg2⟩).bind
      fun st2 => st2.heap.get x) = h.get x := by
  by_cases hc : c <;> simp [hc]

/-- C4 (amended): for a free block `b` at `bAddr` chosen for allocation with
`size ≤ b.size` (and no size_t/pointer overflow, with the block's neighbour
links resolving to distinct headers): if
`b.size − size ≥ MIN_SPLIT_SIZE + sizeof(header)`, split_block writes a new
free tail header at `bAddr + sizeof(header) + size` carrying the residual
payload `b.size − size − sizeof(header)` and inheriting `segment_id`, linked
in the slot of the original block (its prev/next are the original block's
prev/next, the old neighbours now point at it, and it becomes the head if the
original block was); the original block shrinks to `size`, is marked
allocated, and keeps its own stale links.  If the residual is insufficient,
split_block changes nothing at all — in particular the block is NOT unlinked
from the free list (the code merely clears its free flag later in my_malloc). -/
theorem c4_split_block_amended
    (st : AllocState) (segIdx bAddr size : Nat) (seg : Segment) (b : BlockHeader)
    (hseg : st.segments.get? segIdx = some seg)
    (hb : st.heap.get bAddr = some b)
    (hs : 0 < size) (hsW : size < WORD) (hbW : b.size < WORD)
    (hfit : size ≤ b.size)
    (hnw : bAddr + HDR + size < WORD)
    (hprev : ∀ pa, b.prev = some pa → (∃ bp, st.heap.get pa = some bp) ∧
      pa ≠ bAddr ∧ pa ≠ bAddr + HDR + size)
    (hnext : ∀ na, b.next = some na → (∃ bn, st.heap.get na = some bn) ∧
      na ≠ bAddr ∧ na ≠ bAddr + HDR + size)
    (hpn : ∀ pa na, b.prev = some pa → b.next = some na → pa ≠ na) :
    (MIN_SPLIT_SIZE + HDR ≤ b.size - size →
      ((split_block st segIdx bAddr size).bind fun st2 =>
          st2.heap.get (bAddr + HDR + size)) =
        some ⟨b.size - size - HDR, b.next, b.prev, true, b.segment_id⟩ ∧
      ((split_block st segIdx bAddr size).bind fun st2 => st2.heap.get bAddr) =
        some ⟨size, some (bAddr + HDR + size), b.prev, false, b.segment_id⟩ ∧
      (∀ pa bp, b.prev = some pa → st.heap.get pa = some bp →
        ((split_block st segIdx bAddr size).bind fun st2 => st2.heap.get pa) =
          some { bp with next := some (bAddr + HDR + size) }) ∧
      (∀ na bn, b.next = some na → st.heap.get na = some bn →
        ((split_block st segIdx bAddr size).bind fun st2 => st2.heap.get na) =
          some { bn with prev := some (bAddr + HDR + size) }) ∧
      (seg.free_list = some bAddr →
        ((split_block st segIdx bAddr size).map fun st2 =>
            (st2.segments.get? segIdx).map Segment.free_list) =
          some (some (some (bAddr + HDR + size)))) ∧
      (seg.free_list ≠ some bAddr →
        ((split_block st segIdx bAddr size).map fun st2 => st2.segments) =
          some st.segments)) ∧
    (b.size - size < MIN_SPLIT_SIZE + HDR →
      split_block st segIdx bAddr size = some st) := by
  have hs0 : ¬ (size = 0) := by omega
  have hseg2 : st.segments[segIdx]? = some seg := by
    rw [← List.get?_eq_getElem?]; exact hseg
  have hH : HDR = 32 := by decide
  have hMS : MIN_SPLIT_SIZE = 32 := by decide
  have hN : (bAddr + HDR + size) % WORD = bAddr + HDR + size := Nat.mod_eq_of_lt hnw
  have hsz : size % WORD = size := Nat.mod_eq_of_lt hsW
  have hs1 : sub64 b.size size = b.size - size := sub64_eq_sub _ _ hfit hbW
  have hAN : bAddr ≠ bAddr + HDR + size := by omega
  have hNA : bAddr + HDR + size ≠ bAddr := by omega
  constructor
  · intro hres
    have hs2 : sub64 (b.size - size) HDR = b.size - size - HDR :=
      sub64_eq_sub _ _ (by omega) (by omega)
    refine ⟨?_, ?_, ?_, ?_, ?_, ?_⟩
    · -- the fresh tail header
      cases hbp : b.prev with
      | none =>
        cases hbn : b.next with
        | none =>
          simp [split_block, hs0, hseg, hseg2, setSegList, apply_ite, ite_bind_heap_get, hb, hs1, hs2, hres, hN, hsz,
            Heap.rawWrite, Heap.get_set, hbp, hbn, hAN, hNA]
        | some na =>
          rcases hnext na hbn with ⟨⟨bn, hbnrec⟩, hnaA, hnaN⟩
          simp [split_block, hs0, hseg, hseg2, setSegList, apply_ite, ite_bind_heap_get, hb, hs1, hs2, hres, hN, hsz,
            Heap.rawWrite, Heap.get_set, hbp, hbn, hAN, hNA, hbnrec,
            hnaA, hnaN, Ne.symm hnaA, Ne.symm hnaN]
      | some pa =>
        rcases hprev pa hbp with ⟨⟨bp, hbprec⟩, hpaA, hpaN⟩
        cases hbn : b.next with
        | none =>
          simp [split_block, hs0, hseg, hseg2, setSegList, apply_ite, ite_bind_heap_get, hb, hs1, hs2, hres, hN, hsz,
            Heap.rawWrite, Heap.get_set, hbp, hbn, hAN, hNA, hbprec,
            hpaA, hpaN, Ne.symm hpaA, Ne.symm hpaN]
        | some na =>
          rcases hnext na hbn with ⟨⟨bn, hbnrec⟩, hnaA, hnaN⟩
          have hpana : pa ≠ na := hpn pa na hbp hbn
          simp [split_block, hs0, hseg, hseg2, setSegList, apply_ite, ite_bind_heap_get, hb, hs1, hs2, hres, hN, hsz,
            Heap.rawWrite, Heap.get_set, hbp, hbn, hAN, hNA, hbprec, hbnrec,
            hpaA, hpaN, Ne.symm hpaA, Ne.symm hpaN,
            hnaA, hnaN, Ne.symm hnaA, Ne.symm hnaN, hpana, Ne.symm hpana]
    · -- the original block
      cases hbp : b.prev with
      | none =>
        cases hbn : b.next with
        | none =>
          simp [split_block, hs0, hseg, hseg2, setSegList, apply_ite, ite_bind_heap_get, hb, hs1, hs2, hres, hN, hsz,
            Heap.rawWrite, Heap.get_set, hbp, hbn, hAN, hNA]
        | some na =>
          rcases hnext na hbn with ⟨⟨bn, hbnrec⟩, hnaA, hnaN⟩
          simp [split_block, hs0, hseg, hseg2, setSegList, apply_ite, ite_bind_heap_get, hb, hs1, hs2, hres, hN, hsz,
            Heap.rawWrite, Heap.get_set, hbp, hbn, hAN, hNA, hbnrec,
            hnaA, hnaN, Ne.symm hnaA, Ne.symm hnaN]
      | some pa =>
        rcases hprev pa hbp with ⟨⟨bp, hbprec⟩, hpaA, hpaN⟩
        cases hbn : b.next with
        | none =>
          simp [split_block, hs0, hseg, hseg2, setSegList, apply_ite, ite_bind_heap_get, hb, hs1, hs2, hres, hN, hsz,
            Heap.rawWrite, Heap.get_set, hbp, hbn, hAN, hNA, hbprec,
            hpaA, hpaN, Ne.symm hpaA, Ne.symm hpaN]
        | some na =>
          rcases hnext na hbn with ⟨⟨bn, hbnrec⟩, hnaA, hnaN⟩
          have hpana : pa ≠ na := hpn pa na hbp hbn
          simp [split_block, hs0, hseg, hseg2, setSegList, apply_ite, ite_bind_heap_get, hb, hs1, hs2, hres, hN, hsz,
            Heap.rawWrite, Heap.get_set, hbp, hbn, hAN, hNA, hbprec, hbnrec,
            hpaA, hpaN, Ne.symm hpaA, Ne.symm hpaN,
            hnaA, hnaN, Ne.symm hnaA, Ne.symm hnaN, hpana, Ne.symm hpana]
    · -- the old left neighbour now points at the tail
      intro pa bp hbp hbprec
      rcases hprev pa hbp with ⟨_, hpaA, hpaN⟩
      cases hbn : b.next with
      | none =>
        simp [split_block, hs0, hseg, hseg2, setSegList, apply_ite, ite_bind_heap_get, hb, hs1, hs2, hres, hN, hsz,
          Heap.rawWrite, Heap.get_set, hbp, hbn, hAN, hNA, hbprec,
          hpaA, hpaN, Ne.symm hpaA, Ne.symm hpaN]
      | some na =>
        rcases hnext na hbn with ⟨⟨bn, hbnrec⟩, hnaA, hnaN⟩
        have hpana : pa ≠ na := hpn pa na hbp hbn
        simp [split_block, hs0, hseg, hseg2, setSegList, apply_ite, ite_bind_heap_get, hb, hs1, hs2, hres, hN, hsz,
          Heap.rawWrite, Heap.get_set, hbp, hbn, hAN, hNA, hbprec, hbnrec,
          hpaA, hpaN, Ne.symm hpaA, Ne.symm hpaN,
          hnaA, hnaN, Ne.symm hnaA, Ne.symm hnaN, hpana, Ne.symm hpana]
    · -- the old right neighbour now points back at the tail
      intro na bn hbn hbnrec
      rcases hnext na hbn with ⟨_, hnaA, hnaN⟩
      cases hbp : b.prev with
      | none =>
        simp [split_block, hs0, hseg, hseg2, setSegList, apply_ite, ite_bind_heap_get, hb, hs1, hs2, hres, hN, hsz,
          Heap.rawWrite, Heap.get_set, hbp, hbn, hAN, hNA, hbnrec,
          hnaA, hnaN, Ne.symm hnaA, Ne.symm hnaN]
      | some pa =>
        rcases hprev pa hbp with ⟨⟨bp, hbprec⟩, hpaA, hpaN⟩
        have hpana : pa ≠ na := hpn pa na hbp hbn
        simp [split_block, hs0, hseg, hseg2, setSegList, apply_ite, ite_bind_heap_get, hb, hs1, hs2, hres, hN, hsz,
          Heap.rawWrite, Heap.get_set, hbp, hbn, hAN, hNA, hbprec, hbnrec,
          hpaA, hpaN, Ne.symm hpaA, Ne.symm hpaN,
          hnaA, hnaN, Ne.symm hnaA, Ne.symm hnaN, hpana, Ne.symm hpana]
    · -- head slot: the tail takes the original block's place
      intro hhead
      cases hbp : b.prev with
      | none =>
        cases hbn : b.next with
        | none =>
          simp [split_block, hs0, hseg, hseg2, setSegList, apply_ite, ite_bind_heap_get, hb, hs1, hs2, hres, hN, hsz,
            Heap.rawWrite, Heap.get_set, hbp, hbn, hAN, hNA, hhead,
            setListAux_get?]
          refine ⟨{ seg with free_list := some (bAddr + HDR + size) }, ?_, rfl⟩
          rw [← List.get?_eq_getElem?, setListAux_get?]
          simp [hseg, hseg2]
        | some na =>
          rcases hnext na hbn with ⟨⟨bn, hbnrec⟩, hnaA, hnaN⟩
          simp [split_block, hs0, hseg, hseg2, setSegList, apply_ite, ite_bind_heap_get, hb, hs1, hs2, hres, hN, hsz,
            Heap.rawWrite, Heap.get_set, hbp, hbn, hAN, hNA, hbnrec,
            hnaA, hnaN, Ne.symm hnaA, Ne.symm hnaN, hhead, setListAux_get?]
          refine ⟨{ seg with free_list := some (bAddr + HDR + size) }, ?_, rfl⟩
          rw [← List.get?_eq_getElem?, setListAux_get?]
          simp [hseg, hseg2]
      | some pa =>
        rcases hprev pa hbp with ⟨⟨bp, hbprec⟩, hpaA, hpaN⟩
        cases hbn : b.next with
        | none =>
          simp [split_block, hs0, hseg, hseg2, setSegList, apply_ite, ite_bind_heap_get, hb, hs1, hs2, hres, hN, hsz,
            Heap.rawWrite, Heap.get_set, hbp, hbn, hAN, hNA, hbprec,
            hpaA, hpaN, Ne.symm hpaA, Ne.symm hpaN, hhead, setListAux_get?]
          refine ⟨{ seg with free_list := some (bAddr + HDR + size) }, ?_, rfl⟩
          rw [← List.get?_eq_getElem?, setListAux_get?]
          simp [hseg, hseg2]
        | some na =>
          rcases hnext na hbn with ⟨⟨bn, hbnrec⟩, hnaA, hnaN⟩
          have hpana : pa ≠ na := hpn pa na hbp hbn
          simp [split_block, hs0, hseg, hseg2, setSegList, apply_ite, ite_bind_heap_get, hb, hs1, hs2, hres, hN, hsz,
            Heap.rawWrite, Heap.get_set, hbp, hbn, hAN, hNA, hbprec, hbnrec,
            hpaA, hpaN, Ne.symm hpaA, Ne.symm hpaN,
            hnaA, hnaN, Ne.symm hnaA, Ne.symm hnaN, hpana, Ne.symm hpana,
            hhead, setListAux_get?]
          refine ⟨{ seg with free_list := some (bAddr + HDR + size) }, ?_, rfl⟩
          rw [← List.get?_eq_getElem?, setListAux_get?]
          simp [hseg, hseg2]
    · -- non-head block: the segment array is untouched
      intro hhead
      cases hbp : b.prev with
      | none =>
        cases hbn : b.next with
        | none =>
          simp [split_block, hs0, hseg, hseg2, setSegList, apply_ite, ite_bind_heap_get, hb, hs1, hs2, hres, hN, hsz,
            Heap.rawWrite, Heap.get_set, hbp, hbn, hAN, hNA, hhead]
        | some na =>
          rcases hnext na hbn with ⟨⟨bn, hbnrec⟩, hnaA, hnaN⟩
          simp [split_block, hs0, hseg, hseg2, setSegList, apply_ite, ite_bind_heap_get, hb, hs1, hs2, hres, hN, hsz,
            Heap.rawWrite, Heap.get_set, hbp, hbn, hAN, hNA, hbnrec,
            hnaA, hnaN, Ne.symm hnaA, Ne.symm hnaN, hhead]
      | some pa =>
        rcases hprev pa hbp with ⟨⟨bp, hbprec⟩, hpaA, hpaN⟩
        cases hbn : b.next with
        | none =>
          simp [split_block, hs0, hseg, hseg2, setSegList, apply_ite, ite_bind_heap_get, hb, hs1, hs2, hres, hN, hsz,
            Heap.rawWrite, Heap.get_set, hbp, hbn, hAN, hNA, hbprec,
            hpaA, hpaN, Ne.symm hpaA, Ne.symm hpaN, hhead]
        | some na =>
          rcases hnext na hbn with ⟨⟨bn, hbnrec⟩, hnaA, hnaN⟩
          have hpana : pa ≠ na := hpn pa na hbp hbn
          simp [split_block, hs0, hseg, hseg2, setSegList, apply_ite, ite_bind_heap_get, hb, hs1, hs2, hres, hN, hsz,
            Heap.rawWrite, Heap.get_set, hbp, hbn, hAN, hNA, hbprec, hbnrec,
            hpaA, hpaN, Ne.symm hpaA, Ne.symm hpaN,
            hnaA, hnaN, Ne.symm hnaA, Ne.symm hnaN, hpana, Ne.symm hpana, hhead]
  · intro hres
    have hres2 : ¬ (MIN_SPLIT_SIZE + HDR ≤ sub64 b.size size) := by rw [hs1]; omega
    simp [split_block, hs0, hseg, hseg2, hb, hres2]

/-- Witness for `c4_split_block_amended`: segment 0's initial free block of
size 5242848 split for a request of 100 bytes on the freshly initialized
state. -/
theorem c4_split_block_amended_witness :
    (init_allocator.segments.get? 0 = some ⟨5242880, 0, some 0⟩ ∧
     init_allocator.heap.get 0 = some ⟨5242848, none, none, true, 0⟩ ∧
     0 < 100 ∧ (100 : Nat) < WORD ∧ (5242848 : Nat) < WORD ∧
     (100 : Nat) ≤ 5242848 ∧ 0 + HDR + 100 < WORD) ∧
    ((MIN_SPLIT_SIZE + HDR ≤ (5242848 : Nat) - 100 →
      ((split_block init_allocator 0 0 100).bind fun st2 =>
          st2.heap.get (0 + HDR + 100)) =
        some ⟨5242848 - 100 - HDR, none, none, true, 0⟩ ∧
      ((split_block init_allocator 0 0 100).bind fun st2 => st2.heap.get 0) =
        some ⟨100, some (0 + HDR + 100), none, false, 0⟩ ∧
      (∀ pa bp, (none : Option Nat) = some pa → init_allocator.heap.get pa = some bp →
        ((split_block init_allocator 0 0 100).bind fun st2 => st2.heap.get pa) =
          some { bp with next := some (0 + HDR + 100) }) ∧
      (∀ na bn, (none : Option Nat) = some na → init_allocator.heap.get na = some bn →
        ((split_block init_allocator 0 0 100).bind fun st2 => st2.heap.get na) =
          some { bn with prev := some (0 + HDR + 100) }) ∧
      ((some 0 : Option Nat) = some 0 →
        ((split_block init_allocator 0 0 100).map fun st2 =>
            (st2.segments.get? 0).map Segment.free_list) =
          some (some (some (0 + HDR + 100)))) ∧
      ((some 0 : Option Nat) ≠ some 0 →
        ((split_block init_allocator 0 0 100).map fun st2 => st2.segments) =
          some init_allocator.segments)) ∧
     ((5242848 : Nat) - 100 < MIN_SPLIT_SIZE + HDR →
       split_block init_allocator 0 0 100 = some init_allocator)) :=
  ⟨⟨rfl, rfl, by decide, by decide, by decide, by decide, by decide⟩,
   c4_split_block_amended init_allocator 0 0 100 ⟨5242880, 0, some 0⟩
     ⟨5242848, none, none, true, 0⟩ rfl rfl (by decide) (by decide) (by decide)
     (by decide) (by decide)
     (by intro pa h; cases h) (by intro na h; cases h)
     (by intro pa na h1 h2; cases h1)⟩

/-- Executable well-formedness of one segment used by the oversize-request
theorem: the segment exists, its free list head is non-null, the list
materializes without cycles, and every listed block's recorded size is at most
TOTAL_SIZE (true in the initial state, and the intended invariant). -/
def segOKb (st : AllocState) (i : Nat) : Bool :=
  match st.segments.get? i with
  | none => false
  | some seg =>
    match seg.free_list with
    | none => false
    | some _ =>
      match chain st.heap seg.free_list with
      | none => false
      | some L => L.all fun c => decide (c.2.size ≤ TOTAL_SIZE)

/-- Executable well-formedness of the whole allocator state: five segments,
round-robin counter in range, and every segment `segOKb`. -/
def stateOKb (st : AllocState) (cur : Nat) : Bool :=
  decide (st.segments.length = NUM_SEGMENTS) && decide (cur < NUM_SEGMENTS - 1) &&
    (List.range NUM_SEGMENTS).all (segOKb st)

/-- Unpacking `segOKb`. -/
theorem segOKb_spec (st : AllocState) (i : Nat) (h : segOKb st i = true) :
    ∃ seg hd L, st.segments.get? i = some seg ∧ seg.free_list = some hd ∧
      chain st.heap seg.free_list = some L ∧ ∀ c ∈ L, c.2.size ≤ TOTAL_SIZE := by
  unfold segOKb at h
  split at h
  · cases h
  · rename_i seg hseg
    split at h
    · cases h
    · rename_i hd hfl
      split at h
      · cases h
      · rename_i L hch
        refine ⟨seg, hd, L, hseg, hfl, hch, ?_⟩
        intro c hc
        exact of_decide_eq_true (List.all_eq_true.mp h c hc)

/-- On a well-sized free list, a request whose footprint exceeds every listed
block's size makes find_best_fit return NULL. -/
theorem find_best_fit_miss (st : AllocState) (s : Nat) (fl : Option Nat)
    (L : List (Nat × BlockHeader)) (hch : chain st.heap fl = some L)
    (hsz : ∀ c ∈ L, c.2.size ≤ TOTAL_SIZE)
    (hC : TOTAL_SIZE < s) (hw : s + HDR < WORD) :
    find_best_fit st.heap fl (actual_size s) = some none := by
  have hact : actual_size s = s + HDR := Nat.mod_eq_of_lt hw
  have hH : HDR = 32 := by decide
  have hTL : TOTAL_SIZE = 104857600 := by decide
  have hs0 : ¬ (actual_size s = 0) := by rw [hact]; omega
  have hnone : bestFitGo (actual_size s) L none = none := by
    refine bestFitGo_none_of_no_qual (actual_size s) L ?_
    intro c hc hq
    have h1 := hsz c hc
    have h2 := hq.2
    rw [hact] at h2
    omega
  unfold find_best_fit
  rw [if_neg hs0, hch]
  simp [hnone]

/-- C9 (amended): for every well-formed allocator state (five segments,
non-null acyclic free lists, every listed block no larger than TOTAL_SIZE, as
initially) and every request with `TOTAL_SIZE < s` whose footprint
`s + sizeof(header)` does not overflow size_t, my_malloc returns NULL without
performing any condition-variable wait: the first-try best-fit misses, the
request (being larger than LARGE_SIZE) goes to the large segment's
wait_for_free_block, and the `size > TOTAL_SIZE` test there breaks out of the
wait loop before any `pthread_cond_timedwait`. -/
theorem c9_oversize_amended (m : MMState) (st : AllocState) (s : Nat)
    (hinit : m.initialized = true) (hmem : m.mem = some st)
    (hok : stateOKb st m.current_segment = true)
    (hC : TOTAL_SIZE < s) (hw : s + HDR < WORD) :
    ∃ m2, my_malloc m s = some (none, false, m2) := by
  have hTL : TOTAL_SIZE = 104857600 := by decide
  have hLA : LARGE_SIZE = 4194304 := by decide
  have hH : HDR = 32 := by decide
  have hs0 : ¬ (s = 0) := by omega
  have hact : actual_size s = s + HDR := Nat.mod_eq_of_lt hw
  have hok1 := hok
  unfold stateOKb at hok1
  simp only [Bool.and_eq_true, List.all_eq_true, decide_eq_true_eq] at hok1
  obtain ⟨⟨hlen, hcur⟩, hall⟩ := hok1
  rcases segOKb_spec st m.current_segment
      (hall _ (List.mem_range.mpr (by omega))) with
    ⟨segr, hdr1, Lr, hsegr, hflr, hchr, hszr⟩
  rcases segOKb_spec st (NUM_SEGMENTS - 1)
      (hall _ (List.mem_range.mpr (by decide))) with
    ⟨seg4, hd4, L4, hseg4, hfl4, hch4, hsz4⟩
  have hmissr : find_best_fit st.heap segr.free_list (actual_size s) = some none :=
    find_best_fit_miss st s segr.free_list Lr hchr hszr hC hw
  have hmiss4 : find_best_fit st.heap seg4.free_list (actual_size s) = some none :=
    find_best_fit_miss st s seg4.free_list L4 hch4 hsz4 hC hw
  have hs1 : ¬ (actual_size s = 0) := by rw [hact]; omega
  have hgt : TOTAL_SIZE < actual_size s := by rw [hact]; omega
  have hmiss4b : find_best_fit st.heap (some hd4) (actual_size s) = some none := by
    rw [← hfl4]; exact hmiss4
  have hwait : wait_for_free_block st (NUM_SEGMENTS - 1) (actual_size s) =
      some ⟨none, false⟩ := by
    unfold wait_for_free_block
    rw [hseg4]
    simp only [hfl4, hmiss4b, if_neg hs1, if_pos hgt]
  refine ⟨{ m with current_segment := (m.current_segment + 1) % (NUM_SEGMENTS - 1) }, ?_⟩
  unfold my_malloc
  rw [if_neg hs0]
  simp only [hinit, if_true, hmem, hsegr, hmissr, hwait,
    if_neg (show ¬ (s ≤ LARGE_SIZE) by omega)]

/-- Witness for `c9_oversize_amended`: the freshly initialized state and the
request TOTAL_SIZE + 1 (the spec's own boundary scenario 5). -/
theorem c9_oversize_amended_witness :
    ((⟨true, 0, some init_allocator⟩ : MMState).initialized = true ∧
     (⟨true, 0, some init_allocator⟩ : MMState).mem = some init_allocator ∧
     stateOKb init_allocator 0 = true ∧
     TOTAL_SIZE < TOTAL_SIZE + 1 ∧ TOTAL_SIZE + 1 + HDR < WORD) ∧
    (∃ m2, my_malloc ⟨true, 0, some init_allocator⟩ (TOTAL_SIZE + 1) =
      some (none, false, m2)) :=
  ⟨⟨rfl, rfl, by decide, by decide, by decide⟩,
   c9_oversize_amended ⟨true, 0, some init_allocator⟩ init_allocator
     (TOTAL_SIZE + 1) rfl rfl (by decide) (by decide) (by decide)⟩
